import Mathlib

/-!
Verification of the bg-repeaters-worker session/auth core.

This file gives a shallow embedding of the trust layer of the worker:
the token codec (`verifySessionToken`), session issuance
(`createSessionClaims`, the claims-construction part of
`createSessionToken`), the bearer middleware (`ensureBearerAuth`), the
login handler (`adminLogin`), the logout revocation (`bumpTokenVersion`)
and the anonymous-submission rate limiter (`submitRequest`).

Platform functions (Web Crypto HMAC/SHA-256, `JSON.parse`,
`TextDecoder`) are modelled as explicit oracle parameters; `atob`/`btoa`
(WHATWG forgiving base64) and the JavaScript value coercions the source
relies on (truthiness, `ToNumber`, `||`, `??`) are modelled concretely.
JavaScript numbers are modelled as `Int`: the source only ever puts
integral epoch-millisecond values and integral versions in claims, and
the configuration parser falls back to defaults on non-integral input
(a fractional configuration string is modelled as NaN; no claim touches
fractional configuration).
-/

namespace BgReps

/-! ## JavaScript string primitives -/

/-- Whitespace for JS `\s` / `String.prototype.trim` (ASCII subset;
the exotic Unicode space characters never appear in the inputs of the
claims). -/
def isJsWs (c : Char) : Bool :=
  c = ' ' ∨ c = '\t' ∨ c = '\n' ∨ c = '\r' ∨ c = '\x0b' ∨ c = '\x0c'

/-- JS line terminators (not matched by `.` in a regex). -/
def isLineTerm (c : Char) : Bool := c = '\n' ∨ c = '\r'

/-- `String.prototype.trim`. -/
def jsTrim (s : String) : String :=
  ⟨((s.data.dropWhile isJsWs).reverse.dropWhile isJsWs).reverse⟩

/-- ASCII `toUpperCase` (identity on non-ASCII, as in JS for the
usernames involved). -/
def asciiUpper (s : String) : String := ⟨s.data.map Char.toUpper⟩

/-- ASCII `toLowerCase`. -/
def asciiLower (s : String) : String := ⟨s.data.map Char.toLower⟩

/-- `split` on a single-character separator (the only separators the
worker uses: `.`, `:`).  Mirrors JS `String.prototype.split`: the empty
string yields `[""]`. -/
def splitOnCharAux (c : Char) : List Char → List (List Char)
  | [] => [[]]
  | x :: xs =>
    match splitOnCharAux c xs with
    | [] => [[]]
    | h :: t => if x = c then [] :: h :: t else (x :: h) :: t

def jsSplitChar (s : String) (c : Char) : List String :=
  (splitOnCharAux c s.data).map (fun l => ⟨l⟩)

/-- `startsWith` on the character lists. -/
def listStartsWith : List Char → List Char → Bool
  | _, [] => true
  | [], _ :: _ => false
  | x :: xs, y :: ys => x = y && listStartsWith xs ys

def strStartsWith (s pre : String) : Bool := listStartsWith s.data pre.data

/-! ## JavaScript values

`JSON.parse` results are modelled by `JsValue`; property access,
truthiness and `ToNumber` follow the JS semantics the source relies
on. -/

inductive JsValue : Type where
  | null : JsValue
  | bool : Bool → JsValue
  | num : Int → JsValue
  | str : String → JsValue
  | arr : List JsValue → JsValue
  | obj : List (String × JsValue) → JsValue

/-- JS truthiness of a value (`!v` is `¬ jsTruthy v`). -/
def jsTruthy : JsValue → Bool
  | .null => false
  | .bool b => b
  | .num n => n ≠ 0
  | .str s => s ≠ ""
  | .arr _ => true
  | .obj _ => true

/-- Truthiness of an optional value (`undefined` is falsy). -/
def jsOptTruthy : Option JsValue → Bool
  | none => false
  | some v => jsTruthy v

/-- Property access `v[name]`: own properties exist only on objects
(`JSON.parse` keeps the last duplicate key); everything else gives
`undefined` (`none`). -/
def getProp (v : JsValue) (name : String) : Option JsValue :=
  match v with
  | .obj fields => (fields.reverse.find? (fun p => p.1 = name)).map Prod.snd
  | _ => none

/-- `Number(s)` for a string, restricted to optionally signed decimal
integers (the only shape the worker's configuration uses); every other
non-empty shape is NaN (`none`).  A blank string converts to `0`. -/
def jsStrToNum (s : String) : Option Int :=
  let t := jsTrim s
  if t = "" then some 0
  else
    let (sign, digits) :=
      match t.data with
      | '-' :: rest => ((-1 : Int), rest)
      | '+' :: rest => ((1 : Int), rest)
      | l => ((1 : Int), l)
    if digits ≠ [] ∧ digits.all Char.isDigit then
      some (sign * (Int.ofNat (digits.foldl (fun a c => a * 10 + (c.toNat - 48)) 0)))
    else none

/-- JS `ToNumber` (NaN is `none`).  Arrays and objects are modelled as
NaN: the source never compares an array-valued claim with a number in
any execution a claim talks about. -/
def jsToNumber : JsValue → Option Int
  | .null => some 0
  | .bool b => some (if b then 1 else 0)
  | .num n => some n
  | .str s => jsStrToNum s
  | .arr _ => none
  | .obj _ => none

/-! ## `timingSafeEqual` (src/src/session.ts lines 35-40) -/

/-- Constant-time byte comparison: length check, then OR-fold of XORs. -/
def timingSafeEqual (a b : List Nat) : Bool :=
  decide (a.length = b.length) &&
    decide ((List.zip a b).foldl (fun d p => d ||| (p.1 ^^^ p.2)) 0 = 0)

theorem nat_or_eq_zero_iff (x y : Nat) : x ||| y = 0 ↔ x = 0 ∧ y = 0 := by
  constructor
  · intro h
    have hbit : ∀ i, Nat.testBit x i = false ∧ Nat.testBit y i = false := by
      intro i
      have hc := congrArg (fun n => Nat.testBit n i) h
      simpa [Nat.testBit_lor, Nat.zero_testBit] using hc
    exact ⟨Nat.eq_of_testBit_eq fun i => by simp [Nat.zero_testBit, (hbit i).1],
      Nat.eq_of_testBit_eq fun i => by simp [Nat.zero_testBit, (hbit i).2]⟩
  · rintro ⟨rfl, rfl⟩
    rfl

theorem foldl_or_xor_zero (l : List (Nat × Nat)) (d : Nat) :
    l.foldl (fun d p => d ||| (p.1 ^^^ p.2)) d = 0 ↔
      d = 0 ∧ ∀ p ∈ l, p.1 = p.2 := by
  induction l generalizing d with
  | nil => simp
  | cons h t ih =>
    simp only [List.foldl_cons, ih, List.mem_cons]
    constructor
    · rintro ⟨hor, hall⟩
      rw [nat_or_eq_zero_iff] at hor
      obtain ⟨hd, hx⟩ := hor
      refine ⟨hd, ?_⟩
      rintro p (rfl | hp)
      · exact Nat.xor_eq_zero.mp hx
      · exact hall p hp
    · rintro ⟨hd, hall⟩
      refine ⟨?_, fun p hp => hall p (Or.inr hp)⟩
      rw [nat_or_eq_zero_iff]
      exact ⟨hd, Nat.xor_eq_zero.mpr (hall h (Or.inl rfl))⟩

theorem eq_iff_len_zip (a b : List Nat) :
    (a.length = b.length ∧ ∀ p ∈ a.zip b, p.1 = p.2) ↔ a = b := by
  induction a generalizing b with
  | nil => cases b <;> simp
  | cons x t ih =>
    cases b with
    | nil => simp
    | cons y u =>
      simp only [List.length_cons, Nat.succ_inj', List.zip_cons_cons,
        List.mem_cons, List.cons.injEq]
      constructor
      · rintro ⟨hl, hall⟩
        have hx : x = y := by simpa using hall (x, y) (Or.inl rfl)
        exact ⟨hx, (ih u).mp ⟨hl, fun p hp => hall p (Or.inr hp)⟩⟩
      · rintro ⟨rfl, rfl⟩
        refine ⟨rfl, ?_⟩
        rintro p (rfl | hp)
        · rfl
        · exact ((ih t).mpr rfl).2 p hp

/-- `timingSafeEqual` decides list equality. -/
theorem timingSafeEqual_iff (a b : List Nat) :
    timingSafeEqual a b = true ↔ a = b := by
  unfold timingSafeEqual
  simp only [Bool.and_eq_true, decide_eq_true_eq, foldl_or_xor_zero]
  rw [← eq_iff_len_zip a b]
  constructor
  · rintro ⟨h1, -, h2⟩
    exact ⟨h1, h2⟩
  · rintro ⟨h1, h2⟩
    exact ⟨h1, by trivial, h2⟩

/-! ## Base64 (WHATWG forgiving-base64, used by `atob`) and the
`base64urlDecode` helper of src/src/session.ts lines 20-27 -/

/-- Value of a base64 alphabet character (`none` for characters outside
the alphabet, which make `atob` throw). -/
def b64CharVal (c : Char) : Option Nat :=
  if 'A' ≤ c ∧ c ≤ 'Z' then some (c.toNat - 65)
  else if 'a' ≤ c ∧ c ≤ 'z' then some (c.toNat - 97 + 26)
  else if '0' ≤ c ∧ c ≤ '9' then some (c.toNat - 48 + 52)
  else if c = '+' then some 62
  else if c = '/' then some 63
  else none

/-- Strip at most two trailing `=` padding characters. -/
def stripB64Pad (cs : List Char) : List Char :=
  match cs.reverse with
  | '=' :: '=' :: rest => rest.reverse
  | '=' :: rest => rest.reverse
  | _ => cs

/-- Decode a run of 6-bit values into bytes: full 4-value chunks give 3
bytes; a trailing chunk of 2 or 3 values gives 1 or 2 bytes (leftover
low bits discarded, as the forgiving-base64 algorithm does); a trailing
chunk of 1 value is an error. -/
def b64DecodeVals : List Nat → Option (List Nat)
  | [] => some []
  | [_] => none
  | [a, b] => some [(a * 64 + b) / 16]
  | [a, b, c] =>
    let v := a * 4096 + b * 64 + c
    some [v / 1024, (v / 4) % 256]
  | a :: b :: c :: d :: rest => do
    let v := a * 262144 + b * 4096 + c * 64 + d
    let tail ← b64DecodeVals rest
    pure ([v / 65536, (v / 256) % 256, v % 256] ++ tail)

/-- `atob`: forgiving-base64 decode to a byte list.  `none` models the
`InvalidCharacterError` exception. -/
def atob (s : String) : Option (List Nat) := do
  let cs := s.data.filter (fun c => ¬ isJsWs c)
  let cs := if cs.length % 4 = 0 then stripB64Pad cs else cs
  if cs.length % 4 = 1 then none
  else do
    let vals ← cs.mapM b64CharVal
    b64DecodeVals vals

/-- `base64urlDecode` (session.ts lines 20-27): map the url alphabet
back to the standard one, pad with `=` to a multiple of 4, then `atob`;
the resulting binary string is read back as bytes. -/
def base64urlDecode (input : String) : Option (List Nat) :=
  let normalized :=
    input.data.map (fun c => if c = '-' then '+' else if c = '_' then '/' else c)
  let pad := (4 - normalized.length % 4) % 4
  atob ⟨normalized ++ List.replicate pad '='⟩

/-- `btoa` of a byte list (standard base64, total since the code only
feeds it byte values). -/
def btoa (bytes : List Nat) : String :=
  let alphabet :=
    "ABCDEFGHIJKLMNOPQRSTUVWXYZabcdefghijklmnopqrstuvwxyz0123456789+/".data
  let chr := fun (n : Nat) => alphabet.getD n 'A'
  let rec go : List Nat → List Char
    | [] => []
    | [a] =>
      let v := a * 65536
      [chr (v / 262144), chr ((v / 4096) % 64), '=', '=']
    | [a, b] =>
      let v := a * 65536 + b * 256
      [chr (v / 262144), chr ((v / 4096) % 64), chr ((v / 64) % 64), '=']
    | a :: b :: c :: rest =>
      let v := a * 65536 + b * 256 + c
      chr (v / 262144) :: chr ((v / 4096) % 64) :: chr ((v / 64) % 64) ::
        chr (v % 64) :: go rest
  ⟨go bytes⟩

/-- `base64urlEncode` (session.ts lines 11-18): `btoa`, then `+`→`-`,
`/`→`_`, strip trailing `=`. -/
def base64urlEncode (bytes : List Nat) : String :=
  let b := (btoa bytes).data.map
    (fun c => if c = '+' then '-' else if c = '/' then '_' else c)
  ⟨(b.reverse.dropWhile (fun c => c = '=')).reverse⟩

/-! ## TokenCodec: `verifySessionToken` (session.ts lines 104-124)

The HMAC-SHA256 signature and `JSON.parse` (composed with the total
`TextDecoder.decode`) are platform primitives, passed in as oracles:
`hmac data` is the signature byte string of `data` under the process
secret, and `parse bytes` is the JS value the payload bytes parse to
(`none` when `JSON.parse` throws). -/

inductive VerifyErr : Type where
  /-- `throw new Error('INVALID_TOKEN')` -/
  | INVALID_TOKEN : VerifyErr
  /-- `throw new Error('INVALID_SIGNATURE')` -/
  | INVALID_SIGNATURE : VerifyErr
  /-- `throw new Error('INVALID_PAYLOAD')` -/
  | INVALID_PAYLOAD : VerifyErr
  /-- the `InvalidCharacterError` that `atob` raises inside
  `base64urlDecode` on a segment that is not valid base64 — this
  escapes `verifySessionToken` undistinguished from the three
  `Error` values above -/
  | B64_EXCEPTION : VerifyErr
  deriving DecidableEq, Repr

/-- The claims object as the middleware reads it: the two fields
`verifySessionToken` validates are typed; every other field is the raw
JS value found in the payload (absent = `undefined`). -/
structure TokenClaims : Type where
  username : String
  token_version : Int
  issued_at : Option JsValue := none
  exp : Option JsValue := none
  idle_expires : Option JsValue := none
  ua : Option JsValue := none
  device : Option JsValue := none

/-- The payload-shape check of session.ts line 122:
`!claims || typeof claims.username !== 'string' || typeof
claims.token_version !== 'number'`; on success the claims record holds
the payload's property values. -/
def claimsOfJs (v : JsValue) : Option TokenClaims :=
  if jsTruthy v then
    match getProp v "username", getProp v "token_version" with
    | some (.str u), some (.num n) =>
      some { username := u, token_version := n,
             issued_at := getProp v "issued_at",
             exp := getProp v "exp",
             idle_expires := getProp v "idle_expires",
             ua := getProp v "ua",
             device := getProp v "device" }
    | _, _ => none
  else none

/-- `verifySessionToken` (session.ts lines 104-124). -/
def verifySessionToken (hmac : String → List Nat)
    (parse : List Nat → Option JsValue) (token : String) :
    Except VerifyErr TokenClaims :=
  match jsSplitChar token '.' with
  | [headerB64, payloadB64, signatureB64] =>
    let data := headerB64 ++ "." ++ payloadB64
    let expected := hmac data
    match base64urlDecode signatureB64 with
    | none => .error .B64_EXCEPTION
    | some provided =>
      if ¬ timingSafeEqual provided expected then .error .INVALID_SIGNATURE
      else
        match base64urlDecode payloadB64 with
        | none => .error .B64_EXCEPTION
        | some payloadBytes =>
          match parse payloadBytes with
          | none => .error .INVALID_PAYLOAD
          | some v =>
            match claimsOfJs v with
            | none => .error .INVALID_PAYLOAD
            | some claims => .ok claims
  | _ => .error .INVALID_TOKEN

/-! ## Configuration and session policy (session.ts lines 1-4, 29-33,
82-102, 1149-1160) -/

def SESSION_TTL_DEFAULT_MS : Int := 24 * 60 * 60 * 1000
def SESSION_IDLE_DEFAULT_MS : Int := 2 * 60 * 60 * 1000

/-- The worker's environment bindings (each a string or unset). -/
structure Env : Type where
  jwtTtlMs : Option String := none
  jwtIdleMs : Option String := none
  requireHttps : Option String := none
  superadminPw : Option String := none
  requestLimit : Option String := none
  requestWindowMinutes : Option String := none
  turnstileSecretConfigured : Bool := true

/-- `getDuration` (session.ts lines 29-33): falsy value gives the
fallback; otherwise `Number(value)` must be finite and positive. -/
def getDuration (value : Option String) (fallback : Int) : Int :=
  match value with
  | none => fallback
  | some s =>
    if s = "" then fallback
    else
      match jsStrToNum s with
      | some parsed => if parsed > 0 then parsed else fallback
      | none => fallback

/-- Issuance parameters (`SessionIssueParams`).  `uaHash`/`deviceId`
are JS values because the refresh path passes claim values through. -/
structure IssueParams : Type where
  username : String
  tokenVersion : Int
  uaHash : Option JsValue := none
  deviceId : Option JsValue := none

/-- The claims constructed by `createSessionToken` (session.ts lines
82-94); serialization and signing of the token string are platform
crypto and are not needed by any claim. -/
def createSessionClaims (env : Env) (params : IssueParams) (now : Int) :
    TokenClaims :=
  let ttlMs := getDuration env.jwtTtlMs SESSION_TTL_DEFAULT_MS
  let idleMs := getDuration env.jwtIdleMs SESSION_IDLE_DEFAULT_MS
  { username := params.username
    token_version := params.tokenVersion
    issued_at := some (.num now)
    exp := some (.num (now + ttlMs))
    idle_expires := some (.num (now + idleMs))
    ua := if jsOptTruthy params.uaHash then params.uaHash else none
    device := if jsOptTruthy params.deviceId then params.deviceId else none }

/-- `getIdleDurationMs` (session.ts lines 1157-1160): `Number` of the
raw binding, finite and positive, else the 2h default. -/
def getIdleDurationMs (env : Env) : Int :=
  match env.jwtIdleMs with
  | none => SESSION_IDLE_DEFAULT_MS
  | some s =>
    match jsStrToNum s with
    | some parsed => if parsed > 0 then parsed else SESSION_IDLE_DEFAULT_MS
    | none => SESSION_IDLE_DEFAULT_MS

/-- `computeIdleRefreshWindow` (session.ts lines 1149-1155). -/
def computeIdleRefreshWindow (env : Env) : Int :=
  let idleMs := getIdleDurationMs env
  if idleMs ≤ 0 then 0
  else max 60000 (min (idleMs / 4) 900000)

/-! ## UserDirectory (src/src/db.ts)

`getUser` in the source returns a row, an empty object `{}` for a
missing user, or an `ErrorJSON` on a SQL exception; every caller the
claims touch tests only `record.username` truthiness, under which the
empty object and the error record behave identically, so both are
modelled as `none`. -/

structure UserRow : Type where
  username : String
  password : Option String := none
  enabled : Int := 1
  token_version : Option Int := none
  last_login_device : Option String := none
  last_login_ua : Option String := none
  deriving DecidableEq, Repr

/-- Directory state: the `users` table plus the module-level
`superadminTokenVersion` counter (db.ts line 19), which lives in
process memory only. -/
structure DirState : Type where
  users : List UserRow := []
  superadminTokenVersion : Int := 1
  deriving DecidableEq, Repr

def SUPERADMIN_USERNAME : String := "SUPERADMIN"

/-- `isSuperadminUsername` (db.ts lines 23-25). -/
def isSuperadminUsername (username : String) : Bool :=
  asciiUpper (jsTrim username) = SUPERADMIN_USERNAME

/-- `getSuperadminRecord` (db.ts lines 27-31): synthetic row, `enabled`
always 1, version from the in-process counter. -/
def getSuperadminRecord (st : DirState) : UserRow :=
  { username := SUPERADMIN_USERNAME, enabled := 1,
    token_version := some st.superadminTokenVersion }

/-- `getUser` (db.ts lines 115-128): superadmin gives the synthetic
record, otherwise `SELECT ... WHERE username = UPPER(?)`. -/
def getUser (st : DirState) (username : String) : Option UserRow :=
  if isSuperadminUsername username then some (getSuperadminRecord st)
  else st.users.find? (fun r => r.username = asciiUpper username)

/-- JS `x || 1` on a nullable numeric column. -/
def jsOrOne (o : Option Int) : Int :=
  match o with
  | some v => if v = 0 then 1 else v
  | none => 1

/-- `bumpTokenVersion` (db.ts lines 186-201): superadmin bumps the
in-process counter; otherwise `UPDATE ... token_version =
COALESCE(token_version, 1) + 1` followed by a lookup (`none` is the
404 NOTFOUND failure). -/
def bumpTokenVersion (st : DirState) (username : String) :
    Option UserRow × DirState :=
  if isSuperadminUsername username then
    let st' := { st with superadminTokenVersion := st.superadminTokenVersion + 1 }
    (some (getSuperadminRecord st'), st')
  else
    let users' := st.users.map (fun r =>
      if r.username = asciiUpper username then
        { r with token_version := some (r.token_version.getD 1 + 1) }
      else r)
    let st' := { st with users := users' }
    (getUser st' username, st')

/-- `recordUserLogin` (db.ts lines 175-184): a no-op for the superadmin
identity, otherwise an UPDATE of the login metadata columns. -/
def recordUserLogin (st : DirState) (username : String)
    (deviceId uaHash : Option String) : DirState :=
  if isSuperadminUsername username then st
  else
    { st with users := st.users.map (fun r =>
        if r.username = asciiUpper username then
          { r with last_login_device := deviceId, last_login_ua := uaHash }
        else r) }

/-- `atob` producing a binary string (each char one byte). -/
def atobStr (s : String) : Option String :=
  (atob s).map (fun bytes => ⟨bytes.map Char.ofNat⟩)

/-- Match of `/^Basic\s+/i` against a header, returning the remainder
after the matched prefix (that is, `header.replace(/^Basic\s+/i, '')`
when the test succeeds). -/
def basicSchemeRest (h : String) : Option String :=
  if asciiLower ⟨h.data.take 5⟩ = "basic" then
    let rest := h.data.drop 5
    if (rest.takeWhile isJsWs).isEmpty then none
    else some ⟨rest.dropWhile isJsWs⟩
  else none

/-- `timingSafeEqualStrings` (db.ts lines 33-40) XOR-folds the UTF-8
encodings of the two strings; UTF-8 is injective, so it decides string
equality. -/
def timingSafeEqualStrings (a b : String) : Bool := decide (a = b)

/-- `verifyUserBasicAuth` (db.ts lines 130-164): the `sha` oracle is
SHA-256 hex (`sha256Hex`). -/
def verifyUserBasicAuth (sha : String → String) (st : DirState)
    (authHeader : Option String) (superadminPassword : Option String) : Bool :=
  match authHeader with
  | none => false
  | some h =>
    match basicSchemeRest h with
    | none => false
    | some b64 =>
      match atobStr b64 with
      | none => false
      | some decoded =>
        let parts := jsSplitChar decoded ':'
        let user := parts.getD 0 ""
        let pass := parts.getD 1 ""
        if user = "" ∨ pass = "" then false
        else if isSuperadminUsername user then
          let expected := jsTrim (superadminPassword.getD "")
          if expected = "" then false
          else timingSafeEqualStrings pass expected
        else
          match getUser st user with
          | none => false
          | some rec =>
            if rec.enabled = 0 then false
            else decide (rec.password = some (sha pass))

/-- `authenticateUser` (db.ts lines 166-173). -/
def authenticateUser (sha : String → String) (st : DirState)
    (authHeader : Option String) (superadminPassword : Option String) :
    Option String :=
  if verifyUserBasicAuth sha st authHeader superadminPassword then
    match authHeader with
    | none => none
    | some h =>
      match basicSchemeRest h with
      | none => none
      | some b64 =>
        match atobStr b64 with
        | none => none
        | some decoded =>
          let user := (jsSplitChar decoded ':').getD 0 ""
          if user = "" then none else some (asciiUpper user)
  else none

/-! ## AuthGate: `ensureBearerAuth` (session.ts lines 1027-1090) -/

/-- Result of the bearer middleware: `ok username newToken` (the
refreshed token is modelled by the claims it would carry, since the
string form is signing + serialization of exactly these claims), or
`authError status message`. -/
inductive AuthResult : Type where
  | ok : String → Option TokenClaims → AuthResult
  | err : Int → String → AuthResult

/-- `authError` (session.ts lines 1080-1084). -/
def authError (status : Int) (message : String) : AuthResult :=
  .err status message

/-- The request data the middleware reads. -/
structure BearerReq : Type where
  authHeader : Option String := none
  userAgent : Option String := none
  deviceHeader : Option String := none

/-- Match of `/^Bearer\s+(.+)$/i`, returning the capture.  `.` does not
match line terminators, and when nothing follows the whitespace run the
engine backtracks one whitespace character into the capture. -/
def bearerTokenMatch (h : String) : Option String :=
  if asciiLower ⟨h.data.take 6⟩ = "bearer" then
    let rest := h.data.drop 6
    let ws := rest.takeWhile isJsWs
    let tail := rest.dropWhile isJsWs
    if ws.isEmpty then none
    else if ¬ tail.isEmpty then
      if tail.any isLineTerm then none else some ⟨tail⟩
    else if ws.length ≥ 2 ∧ ¬ isLineTerm (ws.getLast?.getD ' ') then
      some ⟨[ws.getLast?.getD ' ']⟩
    else none
  else none

/-- `getRequestDeviceId` (session.ts lines 1086-1090). -/
def getRequestDeviceId (req : BearerReq) : Option String :=
  let trimmed := jsTrim (req.deviceHeader.getD "")
  if trimmed = "" then none else some trimmed

/-- JS `claims.exp < now` after the truthiness guard: `ToNumber` on the
claim value, NaN comparisons false. -/
def jsNumLt (o : Option JsValue) (now : Int) : Bool :=
  match o with
  | some v =>
    match jsToNumber v with
    | some n => decide (n < now)
    | none => false
  | none => false

/-- JS `(claims.idle_expires - now) <= w`: `undefined` makes the
subtraction NaN and the comparison false. -/
def jsNumSubLe (o : Option JsValue) (now w : Int) : Bool :=
  match o with
  | some v =>
    match jsToNumber v with
    | some n => decide (n - now ≤ w)
    | none => false
  | none => false

/-- JS strict `x !== s` against a string: only a string claim of equal
contents is strictly equal. -/
def jsStrictNeStr (x : Option JsValue) (s : String) : Bool :=
  match x with
  | some (.str t) => decide (t ≠ s)
  | _ => true

/-- JS `x ?? fallback` (nullish coalescing). -/
def jsNullishOr (x : Option JsValue) (fallback : Option JsValue) :
    Option JsValue :=
  match x with
  | none => fallback
  | some .null => fallback
  | some v => some v

/-- The body of `ensureBearerAuth` after token verification
(session.ts lines 1041-1077), with `sha` the `sha256Hex` oracle. -/
def bearerAuthClaims (sha : String → String) (env : Env) (st : DirState)
    (req : BearerReq) (claims : TokenClaims) (now : Int) : AuthResult :=
  if jsOptTruthy claims.exp && jsNumLt claims.exp now then
    authError 401 "Session expired."
  else if jsOptTruthy claims.idle_expires && jsNumLt claims.idle_expires now then
    authError 401 "Session expired due to inactivity."
  else
    match getUser st claims.username with
    | none => authError 401 "User not found."
    | some rec =>
      if rec.enabled = 0 then authError 403 "User disabled."
      else
        let currentVersion := jsOrOne rec.token_version
        if currentVersion ≠ claims.token_version then
          authError 401 "Session revoked."
        else
          let ua := req.userAgent.getD ""
          if jsOptTruthy claims.ua && (ua = "" : Bool) then
            authError 401 "User agent mismatch."
          else if jsOptTruthy claims.ua && jsStrictNeStr claims.ua (sha ua) then
            authError 401 "User agent mismatch."
          else
            let deviceId := getRequestDeviceId req
            if jsOptTruthy claims.device && deviceId.isSome &&
                jsStrictNeStr claims.device (deviceId.getD "") then
              authError 401 "Device mismatch."
            else
              -- lines 1052-1057 set requestUaHash when the token is
              -- UA-pinned (the empty-UA case was rejected above), and
              -- line 1063 fills it in otherwise; both reduce to:
              let requestUaHash : Option String :=
                if ua = "" then none else some (sha ua)
              let refreshWindow := computeIdleRefreshWindow env
              let shouldRefresh := refreshWindow > 0 &&
                jsNumSubLe claims.idle_expires now refreshWindow
              let newToken :=
                if shouldRefresh then
                  some (createSessionClaims env
                    { username := claims.username
                      tokenVersion := currentVersion
                      uaHash := jsNullishOr claims.ua (requestUaHash.map .str)
                      deviceId := jsNullishOr claims.device
                        ((getRequestDeviceId req).map .str) } now)
                else none
              .ok claims.username newToken

/-- `ensureBearerAuth` (session.ts lines 1027-1078). -/
def ensureBearerAuth (hmac : String → List Nat)
    (parse : List Nat → Option JsValue) (sha : String → String)
    (env : Env) (st : DirState) (req : BearerReq) (now : Int) : AuthResult :=
  let authHeader := req.authHeader.getD ""
  match bearerTokenMatch authHeader with
  | none => authError 401 "Bearer token required."
  | some raw =>
    let token := jsTrim raw
    if token = "" then authError 401 "Bearer token missing."
    else
      match verifySessionToken hmac parse token with
      | .error _ => authError 401 "Invalid token."
      | .ok claims => bearerAuthClaims sha env st req claims now

/-! ## HTTPS policy (session.ts lines 1162-1184) -/

/-- The `/^172\.(1[6-9]|2\d|3[0-1])\./` RFC1918 range test. -/
def isTrusted172 (s : String) : Bool :=
  match s.data with
  | '1' :: '7' :: '2' :: '.' :: a :: b :: '.' :: _ =>
    (a = '1' ∧ '6' ≤ b ∧ b ≤ '9') ∨ (a = '2' ∧ b.isDigit) ∨
      (a = '3' ∧ (b = '0' ∨ b = '1'))
  | _ => false

/-- `isTrustedLocalHost` (session.ts lines 1169-1179). -/
def isTrustedLocalHost (hostname : String) : Bool :=
  if hostname = "localhost" ∨ hostname = "localhost." then true
  else if hostname = "0.0.0.0" then true
  else if hostname = "::1" ∨ hostname = "::ffff:127.0.0.1" then true
  else if hostname = "[::1]" then true
  else if strStartsWith hostname "127." then true
  else if strStartsWith hostname "10." then true
  else if strStartsWith hostname "192.168." then true
  else isTrusted172 hostname

/-- `isSecureRequest` (session.ts lines 1162-1167): https protocol, or
a trusted local host among the Host header (port stripped, brackets
removed, lowered) and the URL hostname. -/
def isSecureRequest (protoHttps : Bool) (urlHostname : String)
    (hostHeader : Option String) : Bool :=
  if protoHttps then true
  else
    let headerHost := hostHeader.map (fun h =>
      asciiLower ⟨(((jsSplitChar h ':').getD 0 "").data.filter
        (fun c => c ≠ '[' ∧ c ≠ ']'))⟩)
    let candidates :=
      ([headerHost, some (asciiLower urlHostname)].filterMap id).filter
        (fun s => s ≠ "")
    candidates.any isTrustedLocalHost

/-- `shouldEnforceHttps` (session.ts lines 1181-1184). -/
def shouldEnforceHttps (env : Env) : Bool :=
  let flag := jsTrim (asciiLower (env.requireHttps.getD "true"))
  ¬ (flag = "0" ∨ flag = "false" ∨ flag = "no" ∨ flag = "off")

/-! ## LoginHandshake: the POST /admin/login handler (session.ts lines
196-252)

The directory may be mutated concurrently between the two `await`ed
lookups, so the handler takes the state observed by `authenticateUser`
(`stAuth`) and the state observed from `getUser` onwards (`stPost`)
separately; `stAuth = stPost` is the quiescent case. -/

structure LoginReq : Type where
  protoHttps : Bool := true
  urlHostname : String := "example.org"
  hostHeader : Option String := none
  authHeader : Option String := none
  /-- the body's `deviceId` when the body was JSON with a string
  `deviceId` (lines 227-235 leave it undefined otherwise) -/
  bodyDeviceId : Option String := none
  deviceHeader : Option String := none
  userAgent : Option String := none

inductive LoginResp : Type where
  /-- 200 response with the signed token for these claims -/
  | token : TokenClaims → LoginResp
  /-- `c.json({failure, errors:{KIND: message}, code}, status)` -/
  | err : Int → String → LoginResp

/-- The POST /admin/login handler.  `recordLoginFails` injects a SQL
failure of `recordUserLogin` (its only failure mode). -/
def adminLogin (sha : String → String) (env : Env)
    (stAuth stPost : DirState) (req : LoginReq) (recordLoginFails : Bool)
    (now : Int) : LoginResp × DirState :=
  if shouldEnforceHttps env &&
      ¬ isSecureRequest req.protoHttps req.urlHostname req.hostHeader then
    (.err 403 "HTTPS is required for authentication (dev bypass failed).", stPost)
  else
    let authHeader := req.authHeader.getD ""
    if (basicSchemeRest authHeader).isNone then
      (.err 401 "Basic authorization required.", stPost)
    else
      match authenticateUser sha stAuth (some authHeader) env.superadminPw with
      | none => (.err 401 "Invalid credentials.", stPost)
      | some username =>
        match getUser stPost username with
        | none => (.err 404 "User not found.", stPost)
        | some rec =>
          if rec.enabled = 0 then (.err 403 "User disabled.", stPost)
          else
            let bodyD := req.bodyDeviceId.getD ""
            let headerD := req.deviceHeader.getD ""
            let combined := if bodyD ≠ "" then bodyD else headerD
            let deviceId :=
              if jsTrim combined = "" then none else some (jsTrim combined)
            let uaStr := req.userAgent.getD ""
            let uaHash := if uaStr = "" then none else some (sha uaStr)
            if recordLoginFails then (.err 422 "SQL", stPost)
            else
              let st' := recordUserLogin stPost username deviceId uaHash
              let claims := createSessionClaims env
                { username := username
                  tokenVersion := jsOrOne rec.token_version
                  uaHash := uaHash.map .str
                  deviceId := deviceId.map .str } now
              (.token claims, st')

/-! ## AbuseLimiter store

The rate-limit store functions (`pruneRequestRateLimitHits`,
`countRequestRateLimitHits`, `recordRequestRateLimitHit`,
`insertGuestRequest`) are called from src/src/session.ts but their
bodies are not part of the sources under src/, so they are modelled
from the spec.  Store failures (SQL exceptions, surfaced as
`{failure:true, errors:{SQL}, code:422}`) are injected through
`StoreFaults`. -/

structure RlHit : Type where
  contactHash : String
  ip : Option String := none
  created : Int
  deriving DecidableEq, Repr

structure GuestReq : Type where
  id : Nat
  name : String
  contact : String
  contactHash : String
  status : String := "pending"
  deriving DecidableEq, Repr

structure Store : Type where
  hits : List RlHit := []
  guests : List GuestReq := []
  nextId : Nat := 1
  deriving DecidableEq, Repr

/-- Modelled from the spec: `Prune(windowMinutes)` of the AbuseLimiter
(body not under src/) — deletes every hit older than the rolling
window. -/
def pruneRequestRateLimitHits (s : Store) (windowMinutes now : Int) : Store :=
  let kept := s.hits.filter (fun h => decide (h.created > now - windowMinutes * 60000))
  { s with hits := kept }

/-- Modelled from the spec: `Count(contactHash, ip, windowMinutes)` of
the AbuseLimiter (body not under src/) — hits in the last
`windowMinutes` by contact hash and, when an IP is known, by IP. -/
def countRequestRateLimitHits (s : Store) (contactHash : String)
    (ip : Option String) (windowMinutes now : Int) : Int × Int :=
  let inWindow := s.hits.filter
    (fun h => decide (h.created > now - windowMinutes * 60000))
  let byContact := (inWindow.filter (fun h => h.contactHash = contactHash)).length
  let byIp :=
    match ip with
    | some i => (inWindow.filter (fun h => h.ip = some i)).length
    | none => 0
  ((byContact : Int), (byIp : Int))

/-- Modelled from the spec: `RecordHit(contactHash, ip)` of the
AbuseLimiter (body not under src/) — appends a timestamped hit. -/
def recordRequestRateLimitHit (s : Store) (contactHash : String)
    (ip : Option String) (now : Int) : Store :=
  let hit : RlHit := { contactHash := contactHash, ip := ip, created := now }
  { s with hits := s.hits ++ [hit] }

/-- Modelled from the spec: guest-request insertion (body not under
src/) — stores a pending record and returns it. -/
def insertGuestRequest (s : Store) (name contact contactHash : String) :
    GuestReq × Store :=
  let g : GuestReq :=
    { id := s.nextId, name := name, contact := contact, contactHash := contactHash, status := "pending" }
  (g, { s with guests := s.guests ++ [g], nextId := s.nextId + 1 })

/-- `getRequestLimit` (session.ts lines 1105-1111). -/
def getRequestLimit (env : Env) : Int :=
  match env.requestLimit with
  | none => 5
  | some s =>
    match jsStrToNum s with
    | some raw => if raw > 0 then max 1 (min 100 raw) else 5
    | none => 5

/-- `getRequestWindowMinutes` (session.ts lines 1113-1119). -/
def getRequestWindowMinutes (env : Env) : Int :=
  match env.requestWindowMinutes with
  | none => 1440
  | some s =>
    match jsStrToNum s with
    | some raw => if raw > 0 then max 5 (min 10080 raw) else 1440
    | none => 1440

structure StoreFaults : Type where
  pruneFails : Bool := false
  countFails : Bool := false
  insertFails : Bool := false
  recordFails : Bool := false

structure Submission : Type where
  name : String := ""
  contact : String
  /-- outcome of the external Turnstile verification for this token -/
  captchaOk : Bool := true

inductive ReqResp : Type where
  /-- 201: id, status, rateLimit limit/remaining/windowMinutes -/
  | created : Nat → String → Int → Int → Int → ReqResp
  /-- error response: HTTP status, error kind (TURNSTILE, RATELIMIT,
  SQL for surfaced store failures) -/
  | err : Int → String → ReqResp
  deriving DecidableEq, Repr

/-- The POST /requests handler (session.ts lines 429-506). -/
def submitRequest (sha : String → String) (env : Env) (sub : Submission)
    (clientIp : Option String) (faults : StoreFaults) (s : Store)
    (now : Int) : ReqResp × Store :=
  if ¬ env.turnstileSecretConfigured then (.err 500 "TURNSTILE", s)
  else if ¬ sub.captchaOk then (.err 403 "TURNSTILE", s)
  else
    let contact := jsTrim sub.contact
    let name := jsTrim sub.name
    let contactHash := sha (asciiLower contact)
    let windowMinutes := getRequestWindowMinutes env
    let limit := getRequestLimit env
    if faults.pruneFails then (.err 422 "SQL", s)
    else
      let s1 := pruneRequestRateLimitHits s windowMinutes now
      if faults.countFails then (.err 422 "SQL", s1)
      else
        let counts := countRequestRateLimitHits s1 contactHash clientIp
          windowMinutes now
        let ipKnown := (clientIp.getD "") ≠ ""
        if decide (counts.1 ≥ limit) ||
            (ipKnown && decide (counts.2 ≥ limit)) then
          (.err 429 "RATELIMIT", s1)
        else if faults.insertFails then (.err 422 "SQL", s1)
        else
          let ins := insertGuestRequest s1 name contact contactHash
          if faults.recordFails then (.err 422 "SQL", ins.2)
          else
            let s3 := recordRequestRateLimitHit ins.2 contactHash clientIp now
            let usedByContact := counts.1 + 1
            let usedByIp := if ipKnown then counts.2 + 1 else 0
            let used := if ipKnown then max usedByContact usedByIp
              else usedByContact
            let remaining := max 0 (limit - used)
            (.created ins.1.id ins.1.status limit remaining windowMinutes, s3)

/-! ## Helper lemmas on characters and strings -/

theorem char_eq_of_toNat_eq {a b : Char} (h : a.toNat = b.toNat) : a = b := by
  rw [← Char.ofNat_toNat a, h, Char.ofNat_toNat]

theorem toNat_toUpper (c : Char) :
    (Char.toUpper c).toNat =
      if 97 ≤ c.toNat ∧ c.toNat ≤ 122 then c.toNat - 32 else c.toNat := by
  show (if c.toNat ≥ 97 ∧ c.toNat ≤ 122 then Char.ofNat (c.toNat - 32) else c).toNat = _
  by_cases h : 97 ≤ c.toNat ∧ c.toNat ≤ 122
  · rw [if_pos ⟨h.1, h.2⟩, if_pos h]
    obtain ⟨h1, h2⟩ := h
    generalize c.toNat = n at h1 h2 ⊢
    interval_cases n <;> rfl
  · rw [if_neg (fun hh => h ⟨hh.1, hh.2⟩), if_neg h]

theorem toUpper_idem (c : Char) :
    Char.toUpper (Char.toUpper c) = Char.toUpper c := by
  apply char_eq_of_toNat_eq
  rw [toNat_toUpper, toNat_toUpper]
  split_ifs <;> omega

theorem isJsWs_iff_toNat (c : Char) :
    isJsWs c = true ↔
      (c.toNat = 32 ∨ c.toNat = 9 ∨ c.toNat = 10 ∨ c.toNat = 13 ∨
        c.toNat = 11 ∨ c.toNat = 12) := by
  have hc : ∀ d : Char, c = d ↔ c.toNat = d.toNat :=
    fun d => ⟨fun h => h ▸ rfl, char_eq_of_toNat_eq⟩
  simp only [isJsWs, decide_eq_true_eq]
  rw [hc ' ', hc '\t', hc '\n', hc '\r', hc '\x0b', hc '\x0c']
  rfl

theorem isJsWs_toUpper (c : Char) : isJsWs (Char.toUpper c) = isJsWs c := by
  rw [Bool.eq_iff_iff, isJsWs_iff_toNat, isJsWs_iff_toNat, toNat_toUpper]
  split <;> omega

theorem asciiUpper_idem (s : String) :
    asciiUpper (asciiUpper s) = asciiUpper s := by
  simp only [asciiUpper, List.map_map]
  congr 1
  exact List.map_congr_left (fun c _ => toUpper_idem c)

theorem jsTrim_asciiUpper (s : String) :
    jsTrim (asciiUpper s) = asciiUpper (jsTrim s) := by
  have hpf : (isJsWs ∘ Char.toUpper) = isJsWs := funext isJsWs_toUpper
  simp only [jsTrim, asciiUpper, ← List.map_reverse, List.dropWhile_map, hpf]

theorem isSuperadminUsername_asciiUpper (u : String) :
    isSuperadminUsername (asciiUpper u) = isSuperadminUsername u := by
  simp only [isSuperadminUsername, jsTrim_asciiUpper, asciiUpper_idem]

theorem getUser_asciiUpper (st : DirState) (u : String) :
    getUser st (asciiUpper u) = getUser st u := by
  simp only [getUser, isSuperadminUsername_asciiUpper, asciiUpper_idem]

/-! ## Shared concrete fixtures for witnesses and counterexamples -/

/-- Concrete SHA-256-hex oracle for witnesses (any injective stand-in
works: the handlers only compare oracle outputs). -/
def shaW : String → String := fun s => "#" ++ s

/-- Concrete HMAC oracle for witnesses. -/
def hmW : String → List Nat := fun _ => [1, 2, 3]

/-- Concrete `JSON.parse ∘ TextDecoder.decode` oracle: the bytes
`{}` (base64url `e30`) parse to an object with an empty username. -/
def prW : List Nat → Option JsValue := fun b =>
  if b = [123, 125] then
    some (.obj [("username", .str ""), ("token_version", .num 1)])
  else none

def rowAlice : UserRow :=
  { username := "ALICE", password := some (shaW "secret"), enabled := 1,
    token_version := some 3 }

def rowBob : UserRow :=
  { username := "BOB", password := some (shaW "pw"), enabled := 0,
    token_version := some 1 }

def stW : DirState := { users := [rowAlice, rowBob] }

def pW : IssueParams := { username := "alice", tokenVersion := 3 }

/-- Configuration with the idle window longer than the absolute TTL
(`BGREPS_JWT_TTL_MS=3600000`, `BGREPS_JWT_IDLE_MS=7200000`). -/
def envBad : Env := { jwtTtlMs := some "3600000", jwtIdleMs := some "7200000" }

def claimsW : TokenClaims :=
  { username := "alice", token_version := 3, exp := some (.num 100000000),
    idle_expires := some (.num 7000000) }

/-! ## C1 — token codec error order -/

/-- C1 counterexample: the claim requires a signature-valid token whose
payload carries a username that is not a NON-EMPTY string to fail with
INVALID_PAYLOAD, but line 122 of session.ts checks only
`typeof claims.username !== 'string'`: a payload with `username: ""`
and a numeric `token_version` verifies successfully. -/
theorem C1_empty_username_ctex :
    verifySessionToken hmW prW "h.e30.AQID" =
      .ok { username := "", token_version := 1 } ∧
    verifySessionToken hmW prW "h.e30.AQID" ≠
      .error VerifyErr.INVALID_PAYLOAD := by
  refine ⟨rfl, fun hcontra => ?_⟩
  have h0 : verifySessionToken hmW prW "h.e30.AQID" =
      .ok { username := "", token_version := 1 } := rfl
  rw [h0] at hcontra
  exact Except.noConfusion hcontra

/-- C1 (amended): for every token whose signature and payload segments
are valid base64url, `verifySessionToken` either returns the parsed
claims or fails with exactly one of the three errors, checked in this
order: not exactly 3 dot-segments gives INVALID_TOKEN; a recomputed
HMAC differing from the decoded third segment (the constant-time
comparison decides byte equality, `timingSafeEqual_iff`) gives
INVALID_SIGNATURE; a payload that does not parse, or whose parsed value
fails the shape check `claimsOfJs` (truthy value with a **string**
username — emptiness is NOT checked — and a numeric token_version),
gives INVALID_PAYLOAD; otherwise the parsed claims are returned.
(A segment that is not valid base64url instead raises the `atob`
exception, modelled as `B64_EXCEPTION`.) -/
theorem C1_codec_error_order (hmac : String → List Nat)
    (parse : List Nat → Option JsValue) (token : String) :
    ((jsSplitChar token '.').length ≠ 3 →
      verifySessionToken hmac parse token = .error .INVALID_TOKEN)
    ∧ (∀ h p s, jsSplitChar token '.' = [h, p, s] →
        ∀ sig, base64urlDecode s = some sig →
        ∀ pay, base64urlDecode p = some pay →
          (sig ≠ hmac (h ++ "." ++ p) →
            verifySessionToken hmac parse token = .error .INVALID_SIGNATURE)
          ∧ (sig = hmac (h ++ "." ++ p) →
              ((parse pay).bind claimsOfJs = none →
                verifySessionToken hmac parse token = .error .INVALID_PAYLOAD)
              ∧ (∀ c, (parse pay).bind claimsOfJs = some c →
                  verifySessionToken hmac parse token = .ok c))) := by
  constructor
  · intro hlen
    unfold verifySessionToken
    rcases hL : jsSplitChar token '.' with _ | ⟨a, _ | ⟨b, _ | ⟨c, _ | ⟨d, t⟩⟩⟩⟩ <;>
      simp_all
  · intro h p s hL sig hsig pay hpay
    have hv : verifySessionToken hmac parse token =
        (if ¬ timingSafeEqual sig (hmac (h ++ "." ++ p)) then
          Except.error VerifyErr.INVALID_SIGNATURE
        else
          match parse pay with
          | none => Except.error VerifyErr.INVALID_PAYLOAD
          | some v =>
            match claimsOfJs v with
            | none => Except.error VerifyErr.INVALID_PAYLOAD
            | some claims => Except.ok claims) := by
      unfold verifySessionToken
      rw [hL]
      simp only [hsig, hpay]
    refine ⟨fun hne => ?_, fun heq => ⟨fun hb => ?_, fun c hc => ?_⟩⟩
    · rw [hv, if_pos]
      intro hT
      exact hne ((timingSafeEqual_iff _ _).mp hT)
    · rw [hv, if_neg (not_not_intro ((timingSafeEqual_iff _ _).mpr heq))]
      cases hpp : parse pay with
      | none => rfl
      | some v =>
        have hb' : claimsOfJs v = none := by rw [hpp] at hb; exact hb
        simp only [hpp, hb']
    · rw [hv, if_neg (not_not_intro ((timingSafeEqual_iff _ _).mpr heq))]
      cases hpp : parse pay with
      | none => rw [hpp] at hc; exact absurd hc (by simp)
      | some v =>
        have hc' : claimsOfJs v = some c := by rw [hpp] at hc; exact hc
        simp only [hpp, hc']

/-- Witness for C1: a concrete token whose decoded signature differs
from the recomputed HMAC is rejected with INVALID_SIGNATURE. -/
theorem C1_codec_error_order_witness :
    verifySessionToken hmW prW "h.e30.AAAA" = .error .INVALID_SIGNATURE :=
  ((C1_codec_error_order hmW prW "h.e30.AAAA").2 "h" "e30" "AAAA" rfl
      [0, 0, 0] rfl [123, 125] rfl).1 (by decide)

/-! ## C2 — the `issued_at < idle_expires <= exp` invariant -/

/-- The invariant claimed for accepted tokens. -/
def claimsInvariant (c : TokenClaims) : Prop :=
  ∃ ia ie ex : Int, c.issued_at = some (.num ia) ∧
    c.idle_expires = some (.num ie) ∧ c.exp = some (.num ex) ∧
    ia < ie ∧ ie ≤ ex

/-- C2 counterexample: with `BGREPS_JWT_TTL_MS=3600000` and
`BGREPS_JWT_IDLE_MS=7200000`, `createSessionToken` performs no clamping
(session.ts lines 86-92), issuing `idle_expires = 7200000 > exp =
3600000`; the bearer middleware still accepts the token at `now = 100`
since it never compares the two fields. -/
theorem C2_idle_exceeds_exp_ctex :
    bearerAuthClaims shaW envBad stW {} (createSessionClaims envBad pW 0) 100 =
      .ok "alice" none
    ∧ (createSessionClaims envBad pW 0).idle_expires = some (.num 7200000)
    ∧ (createSessionClaims envBad pW 0).exp = some (.num 3600000)
    ∧ ¬ claimsInvariant (createSessionClaims envBad pW 0) := by
  refine ⟨rfl, rfl, rfl, ?_⟩
  rintro ⟨ia, ie, ex, h1, h2, h3, h4, h5⟩
  rw [show (createSessionClaims envBad pW 0).idle_expires =
      some (.num 7200000) from rfl] at h2
  rw [show (createSessionClaims envBad pW 0).exp =
      some (.num 3600000) from rfl] at h3
  injection h2 with h2'
  injection h3 with h3'
  injection h2' with h2n
  injection h3' with h3n
  omega

/-- C2 (amended): issuance computes `issued_at = now`,
`exp = now + TTL`, `idle_expires = now + Idle` with both configured
durations positive, so `issued_at < idle_expires` always holds, and
`idle_expires ≤ exp` holds exactly when the configured idle duration
does not exceed the TTL (as under the defaults).  No clamping of
`idle_expires` to `exp` is performed, and the middleware does not check
the relation, so with idle > TTL an accepted token violates it
(`C2_idle_exceeds_exp_ctex`). -/
theorem C2_issuance_invariant (env : Env) (p : IssueParams) (now : Int) :
    0 < getDuration env.jwtTtlMs SESSION_TTL_DEFAULT_MS
    ∧ 0 < getDuration env.jwtIdleMs SESSION_IDLE_DEFAULT_MS
    ∧ (createSessionClaims env p now).issued_at = some (.num now)
    ∧ (createSessionClaims env p now).exp =
        some (.num (now + getDuration env.jwtTtlMs SESSION_TTL_DEFAULT_MS))
    ∧ (createSessionClaims env p now).idle_expires =
        some (.num (now + getDuration env.jwtIdleMs SESSION_IDLE_DEFAULT_MS))
    ∧ (getDuration env.jwtIdleMs SESSION_IDLE_DEFAULT_MS ≤
        getDuration env.jwtTtlMs SESSION_TTL_DEFAULT_MS →
        claimsInvariant (createSessionClaims env p now)) := by
  have hpos : ∀ (v : Option String) (fb : Int), 0 < fb → 0 < getDuration v fb := by
    intro v fb hfb
    unfold getDuration
    cases v with
    | none => exact hfb
    | some s =>
      by_cases hs : s = ""
      · simp [hs, hfb]
      · rcases hn : jsStrToNum s with - | n
        · simp [hs, hn, hfb]
        · simp only [hs, if_neg, hn]
          split <;> omega
  have hT := hpos env.jwtTtlMs SESSION_TTL_DEFAULT_MS (by decide)
  have hI := hpos env.jwtIdleMs SESSION_IDLE_DEFAULT_MS (by decide)
  refine ⟨hT, hI, rfl, rfl, rfl, fun hle => ?_⟩
  exact ⟨now, now + getDuration env.jwtIdleMs SESSION_IDLE_DEFAULT_MS,
    now + getDuration env.jwtTtlMs SESSION_TTL_DEFAULT_MS,
    rfl, rfl, rfl, by omega, by omega⟩

/-- Witness for C2: under the default configuration (idle 2h ≤ TTL 24h)
the issued claims do satisfy the invariant. -/
theorem C2_issuance_invariant_witness :
    claimsInvariant (createSessionClaims {} pW 0) :=
  (C2_issuance_invariant {} pW 0).2.2.2.2.2 (by decide)

/-! ## C10 — falsy `exp` / `idle_expires` skip the time checks -/

def clNoExp : TokenClaims := { username := "alice", token_version := 3 }

/-- When both time claims are falsy, any error the middleware produces
is one of the post-time-check errors: the expiry messages cannot
occur. -/
theorem bearerAuthClaims_err_msgs (sha : String → String) (env : Env)
    (st : DirState) (req : BearerReq) (claims : TokenClaims) (now : Int)
    (hexp : jsOptTruthy claims.exp = false)
    (hidle : jsOptTruthy claims.idle_expires = false) (code : Int)
    (msg : String)
    (h : bearerAuthClaims sha env st req claims now = .err code msg) :
    msg = "User not found." ∨ msg = "User disabled." ∨
      msg = "Session revoked." ∨ msg = "User agent mismatch." ∨
      msg = "Device mismatch." := by
  unfold bearerAuthClaims at h
  rw [hexp, hidle] at h
  simp only [Bool.false_and, Bool.false_eq_true, if_false] at h
  rcases hg : getUser st claims.username with - | rec
  · rw [hg] at h
    unfold authError at h
    injection h with h1 h2
    exact Or.inl h2.symm
  · rw [hg] at h
    dsimp only at h
    by_cases he : rec.enabled = 0
    · rw [if_pos he] at h
      unfold authError at h
      injection h with h1 h2
      exact Or.inr (Or.inl h2.symm)
    · rw [if_neg he] at h
      by_cases hv : jsOrOne rec.token_version ≠ claims.token_version
      · rw [if_pos hv] at h
        unfold authError at h
        injection h with h1 h2
        exact Or.inr (Or.inr (Or.inl h2.symm))
      · rw [if_neg hv] at h
        rcases hc1 : jsOptTruthy claims.ua &&
            decide (req.userAgent.getD "" = "") with - | -
        · rw [if_neg (by simp [hc1])] at h
          rcases hc2 : jsOptTruthy claims.ua &&
              jsStrictNeStr claims.ua (sha (req.userAgent.getD "")) with - | -
          · rw [if_neg (by simp [hc2])] at h
            rcases hc3 : jsOptTruthy claims.device &&
                (getRequestDeviceId req).isSome &&
                jsStrictNeStr claims.device
                  ((getRequestDeviceId req).getD "") with - | -
            · rw [if_neg (by simp [hc3])] at h
              exact absurd h (by intro hh; exact AuthResult.noConfusion hh)
            · rw [if_pos hc3] at h
              unfold authError at h
              injection h with h1 h2
              exact Or.inr (Or.inr (Or.inr (Or.inr h2.symm)))
          · rw [if_pos hc2] at h
            unfold authError at h
            injection h with h1 h2
            exact Or.inr (Or.inr (Or.inr (Or.inl h2.symm)))
        · rw [if_pos hc1] at h
          unfold authError at h
          injection h with h1 h2
          exact Or.inr (Or.inr (Or.inr (Or.inl h2.symm)))

/-- C10: a signature-valid token whose parsed payload lacks `exp` or
`idle_expires`, or carries a falsy value for them, is never rejected as
expired: `claimsOfJs` demands only a string username and a numeric
token_version (first conjunct: a payload with just those two fields
verifies, all other claims absent), and the middleware's time checks
(session.ts lines 1042-1043) are guarded by truthiness, so neither
expiry rejection can occur at any current time. -/
theorem C10_falsy_expiry_skipped (sha : String → String) (env : Env)
    (st : DirState) (req : BearerReq) (claims : TokenClaims) (now : Int)
    (hexp : jsOptTruthy claims.exp = false)
    (hidle : jsOptTruthy claims.idle_expires = false) :
    (∀ u n, claimsOfJs (.obj [("username", .str u), ("token_version", .num n)]) =
      some { username := u, token_version := n })
    ∧ bearerAuthClaims sha env st req claims now ≠
        authError 401 "Session expired."
    ∧ bearerAuthClaims sha env st req claims now ≠
        authError 401 "Session expired due to inactivity." := by
  refine ⟨fun u n => rfl, fun h => ?_, fun h => ?_⟩
  · rcases bearerAuthClaims_err_msgs sha env st req claims now hexp hidle
      401 "Session expired." h with h1 | h1 | h1 | h1 | h1 <;>
      exact absurd h1 (by decide)
  · rcases bearerAuthClaims_err_msgs sha env st req claims now hexp hidle
      401 "Session expired due to inactivity." h with h1 | h1 | h1 | h1 | h1 <;>
      exact absurd h1 (by decide)

/-- Witness for C10: the concrete claims with no `exp`/`idle_expires`
at an arbitrarily late current time. -/
theorem C10_falsy_expiry_skipped_witness :
    (∀ u n, claimsOfJs (.obj [("username", .str u), ("token_version", .num n)]) =
      some { username := u, token_version := n })
    ∧ bearerAuthClaims shaW {} stW {} clNoExp 999999999999 ≠
        authError 401 "Session expired."
    ∧ bearerAuthClaims shaW {} stW {} clNoExp 999999999999 ≠
        authError 401 "Session expired due to inactivity." :=
  C10_falsy_expiry_skipped shaW {} stW {} clNoExp 999999999999 rfl rfl

/-! ## Inversion of an accepted bearer request -/

theorem getIdleDurationMs_pos (env : Env) : 0 < getIdleDurationMs env := by
  unfold getIdleDurationMs
  rcases hj : env.jwtIdleMs with - | s <;> simp only [hj]
  · decide
  · rcases hn : jsStrToNum s with - | n <;> simp only [hn]
    · decide
    · split
      · omega
      · decide

theorem computeIdleRefreshWindow_eq (env : Env) :
    computeIdleRefreshWindow env =
      max 60000 (min (getIdleDurationMs env / 4) 900000) := by
  unfold computeIdleRefreshWindow
  rw [if_neg (by have := getIdleDurationMs_pos env; omega)]

theorem computeIdleRefreshWindow_pos (env : Env) :
    0 < computeIdleRefreshWindow env := by
  rw [computeIdleRefreshWindow_eq]
  exact lt_of_lt_of_le (by norm_num) (le_max_left _ _)

/-- Full inversion of `bearerAuthClaims ... = .ok u tok`: every check
passed, `u` is the token's username, and `tok` is exactly the refresh
decision of session.ts lines 1065-1077. -/
theorem bearerAuthClaims_ok_inv (sha : String → String) (env : Env)
    (st : DirState) (req : BearerReq) (claims : TokenClaims) (now : Int)
    (u : String) (tok : Option TokenClaims)
    (h : bearerAuthClaims sha env st req claims now = .ok u tok) :
    (jsOptTruthy claims.exp && jsNumLt claims.exp now) = false
    ∧ (jsOptTruthy claims.idle_expires && jsNumLt claims.idle_expires now) = false
    ∧ ∃ rec, getUser st claims.username = some rec ∧ ¬ rec.enabled = 0 ∧
      jsOrOne rec.token_version = claims.token_version ∧
      (jsOptTruthy claims.ua && decide (req.userAgent.getD "" = "")) = false ∧
      (jsOptTruthy claims.ua &&
        jsStrictNeStr claims.ua (sha (req.userAgent.getD ""))) = false ∧
      (jsOptTruthy claims.device && (getRequestDeviceId req).isSome &&
        jsStrictNeStr claims.device ((getRequestDeviceId req).getD "")) = false ∧
      u = claims.username ∧
      tok = (if (decide (computeIdleRefreshWindow env > 0) &&
              jsNumSubLe claims.idle_expires now (computeIdleRefreshWindow env)) =
              true then
          some (createSessionClaims env
            { username := claims.username
              tokenVersion := jsOrOne rec.token_version
              uaHash := jsNullishOr claims.ua
                ((if req.userAgent.getD "" = "" then none
                  else some (sha (req.userAgent.getD ""))).map JsValue.str)
              deviceId := jsNullishOr claims.device
                ((getRequestDeviceId req).map JsValue.str) } now)
        else none) := by
  have noK : ∀ (s : Int) (m : String),
      authError s m = AuthResult.ok u tok → False :=
    fun s m hh => AuthResult.noConfusion hh
  unfold bearerAuthClaims at h
  cases he1 : (jsOptTruthy claims.exp && jsNumLt claims.exp now) with
  | true => rw [if_pos he1] at h; exact absurd h (noK _ _)
  | false =>
    rw [if_neg (by simp [he1])] at h
    cases he2 : (jsOptTruthy claims.idle_expires &&
        jsNumLt claims.idle_expires now) with
    | true => rw [if_pos he2] at h; exact absurd h (noK _ _)
    | false =>
      rw [if_neg (by simp [he2])] at h
      rcases hg : getUser st claims.username with - | rec
      · rw [hg] at h
        exact absurd h (noK _ _)
      · rw [hg] at h
        dsimp only at h
        by_cases he : rec.enabled = 0
        · rw [if_pos he] at h; exact absurd h (noK _ _)
        · rw [if_neg he] at h
          by_cases hv : jsOrOne rec.token_version ≠ claims.token_version
          · rw [if_pos hv] at h; exact absurd h (noK _ _)
          · rw [if_neg hv] at h
            cases hu1 : (jsOptTruthy claims.ua &&
                decide (req.userAgent.getD "" = "")) with
            | true => rw [if_pos hu1] at h; exact absurd h (noK _ _)
            | false =>
              rw [if_neg (by simp [hu1])] at h
              cases hu2 : (jsOptTruthy claims.ua &&
                  jsStrictNeStr claims.ua (sha (req.userAgent.getD ""))) with
              | true => rw [if_pos hu2] at h; exact absurd h (noK _ _)
              | false =>
                rw [if_neg (by simp [hu2])] at h
                cases hd : (jsOptTruthy claims.device &&
                    (getRequestDeviceId req).isSome &&
                    jsStrictNeStr claims.device
                      ((getRequestDeviceId req).getD "")) with
                | true => rw [if_pos hd] at h; exact absurd h (noK _ _)
                | false =>
                  rw [if_neg (by simp [hd])] at h
                  injection h with hA hB
                  exact ⟨rfl, rfl, rec, rfl, he, not_not.mp hv, rfl, rfl, rfl,
                    hA.symm, hB.symm⟩

/-! ## C7 — refresh window computation and refresh boundary -/

def envIdle2h : Env := { jwtIdleMs := some "7200000" }

def nowRef : Int := 1000000

def claims10m : TokenClaims :=
  { username := "alice", token_version := 3, exp := some (.num 2000000000),
    idle_expires := some (.num 1600000) }

def claims20m : TokenClaims :=
  { username := "alice", token_version := 3, exp := some (.num 2000000000),
    idle_expires := some (.num 2200000) }

/-- C7: the refresh window is `clamp(IdleTimeout/4, 60s, 15min)` (the
idle duration is always positive, so the zero branch of
`computeIdleRefreshWindow` is dead); an accepted token triggers
issuance of a refreshed token exactly when
`idle_expires - now <= RefreshWindow` (the window is positive, so the
`refreshWindow > 0` conjunct never blocks); with a 2h idle timeout the
window is 15 minutes, a request with `idle_expires - now = 10min` gets
a new token, and one with `idle_expires - now = 20min` does not. -/
theorem C7_refresh_window :
    (∀ env : Env, 0 < getIdleDurationMs env ∧
      computeIdleRefreshWindow env =
        max 60000 (min (getIdleDurationMs env / 4) 900000)) ∧
    (∀ (sha : String → String) (env : Env) (st : DirState) (req : BearerReq)
      (claims : TokenClaims) (now : Int) (u : String)
      (tok : Option TokenClaims),
      bearerAuthClaims sha env st req claims now = .ok u tok →
      (tok.isSome = true ↔
        jsNumSubLe claims.idle_expires now (computeIdleRefreshWindow env) =
          true)) ∧
    computeIdleRefreshWindow envIdle2h = 900000 ∧
    bearerAuthClaims shaW envIdle2h stW {} claims10m nowRef =
      .ok "alice" (some (createSessionClaims envIdle2h pW nowRef)) ∧
    bearerAuthClaims shaW envIdle2h stW {} claims20m nowRef =
      .ok "alice" none := by
  refine ⟨fun env => ⟨getIdleDurationMs_pos env, computeIdleRefreshWindow_eq env⟩,
    ?_, rfl, rfl, rfl⟩
  intro sha env st req claims now u tok h
  obtain ⟨-, -, rec, -, -, -, -, -, -, -, hB⟩ :=
    bearerAuthClaims_ok_inv sha env st req claims now u tok h
  rw [hB]
  cases hs : jsNumSubLe claims.idle_expires now (computeIdleRefreshWindow env) with
  | true =>
    rw [if_pos]
    · simp
    · simp only [Bool.and_true, decide_eq_true_eq]
      exact computeIdleRefreshWindow_pos env
  | false =>
    rw [if_neg]
    · simp
    · simp

/-- Witness for C7: the refresh-boundary equivalence instantiated at
the accepted 10-minutes-left request. -/
theorem C7_refresh_window_witness :
    ((some (createSessionClaims envIdle2h pW nowRef) : Option TokenClaims).isSome
        = true ↔
      jsNumSubLe claims10m.idle_expires nowRef
        (computeIdleRefreshWindow envIdle2h) = true) :=
  C7_refresh_window.2.1 shaW envIdle2h stW {} claims10m nowRef "alice" _
    C7_refresh_window.2.2.2.1

/-! ## C4 — what a refreshed token carries -/

def reqUA : BearerReq := { userAgent := some "Mozilla" }

theorem getRequestDeviceId_ne (req : BearerReq) (d : String)
    (h : getRequestDeviceId req = some d) : d ≠ "" := by
  unfold getRequestDeviceId at h
  dsimp only at h
  split at h
  · exact absurd h (by simp)
  · next hne => injection h with h'; exact h' ▸ hne

theorem jsStrictNeStr_false (x : Option JsValue) (s : String)
    (h : jsStrictNeStr x s = false) : x = some (.str s) := by
  unfold jsStrictNeStr at h
  rcases x with - | v
  · exact absurd h (by simp)
  · rcases v with - | b | n | t | l | f
    case str =>
      have h' : decide (t ≠ s) = false := h
      simp only [decide_not, Bool.not_eq_false', decide_eq_true_eq] at h'
      rw [h']
    all_goals exact absurd (show true = false from h) (by simp)

theorem shaW_ne (x : String) : shaW x ≠ "" := by
  intro h
  have h2 := congrArg String.data h
  simp only [shaW] at h2
  exact List.noConfusion (show '#' :: x.data = ([] : List Char) from h2)

/-- C4 counterexample: the original token carries no `ua` claim, but
the request presents a User-Agent; the refreshed token issued by the
middleware (session.ts line 1071, `claims.ua ?? requestUaHash`) carries
`ua = sha256(User-Agent)` — an absent claim does NOT stay absent. -/
theorem C4_ua_added_on_refresh_ctex :
    claims10m.ua = none ∧
    bearerAuthClaims shaW envIdle2h stW reqUA claims10m nowRef =
      .ok "alice" (some (createSessionClaims envIdle2h
        { username := "alice", tokenVersion := 3,
          uaHash := some (.str (shaW "Mozilla")) } nowRef)) ∧
    (createSessionClaims envIdle2h
      { username := "alice", tokenVersion := 3,
        uaHash := some (.str (shaW "Mozilla")) } nowRef).ua =
      some (.str (shaW "Mozilla")) :=
  ⟨rfl, rfl, rfl⟩

/-- C4 (amended): when the middleware refreshes an accepted token, the
new claims carry the original `token_version` (which the version check
forced to equal the directory's current version) and recomputed
`issued_at`/`exp`/`idle_expires` from now; a truthy original `ua` or
`device` claim is preserved unchanged; but an ABSENT `ua` is replaced
by the hash of the request's User-Agent when one is present, and an
absent `device` by the request's device header when present (the
`??` fallbacks of session.ts lines 1071-1072) — absent claims stay
absent only on requests that do not supply the corresponding value.
(`sha` is assumed to return non-empty hashes, as SHA-256 hex does.) -/
theorem C4_refresh_preserves_claims (sha : String → String) (env : Env)
    (st : DirState) (req : BearerReq) (claims : TokenClaims) (now : Int)
    (u : String) (c' : TokenClaims)
    (h : bearerAuthClaims sha env st req claims now = .ok u (some c'))
    (hsha : ∀ x, sha x ≠ "") :
    c'.token_version = claims.token_version
    ∧ c'.issued_at = some (.num now)
    ∧ c'.exp = some (.num (now + getDuration env.jwtTtlMs SESSION_TTL_DEFAULT_MS))
    ∧ c'.idle_expires =
        some (.num (now + getDuration env.jwtIdleMs SESSION_IDLE_DEFAULT_MS))
    ∧ (∀ v, claims.ua = some v → jsTruthy v = true → c'.ua = claims.ua)
    ∧ (claims.ua = none →
        c'.ua = (if req.userAgent.getD "" = "" then none
          else some (.str (sha (req.userAgent.getD "")))))
    ∧ (∀ v, claims.device = some v → jsTruthy v = true →
        c'.device = claims.device)
    ∧ (claims.device = none →
        c'.device = (getRequestDeviceId req).map JsValue.str) := by
  obtain ⟨-, -, rec, -, -, hveq, -, hu2, hd, -, hB⟩ :=
    bearerAuthClaims_ok_inv sha env st req claims now u (some c') h
  rw [if_pos] at hB
  rotate_left
  · by_contra hcond
    rw [if_neg hcond] at hB
    exact Option.noConfusion hB
  injection hB with hc'
  subst hc'
  refine ⟨hveq, rfl, rfl, rfl, ?_, ?_, ?_, ?_⟩
  · intro v hua htru
    have hne2 : jsStrictNeStr claims.ua (sha (req.userAgent.getD "")) = false := by
      rcases Bool.and_eq_false_iff.mp hu2 with h1 | h1
      · rw [hua] at h1
        simp only [jsOptTruthy] at h1
        rw [htru] at h1
        exact absurd h1 (by simp)
      · exact h1
    have hform := jsStrictNeStr_false _ _ hne2
    simp only [createSessionClaims, hform]
    simp [jsNullishOr, jsOptTruthy, jsTruthy, hsha (req.userAgent.getD "")]
  · intro hua
    simp only [createSessionClaims, hua]
    by_cases hu0 : req.userAgent.getD "" = ""
    · rw [if_pos hu0, if_pos hu0]
      rfl
    · rw [if_neg hu0, if_neg hu0]
      simp [jsNullishOr, jsOptTruthy, jsTruthy, hsha (req.userAgent.getD "")]
  · intro v hdev htru
    simp only [createSessionClaims, hdev]
    have hnn : jsNullishOr (some v)
        ((getRequestDeviceId req).map JsValue.str) = some v := by
      unfold jsNullishOr
      rcases v with - | b | n | t | l | f <;>
        first
          | rfl
          | (exact absurd htru (by simp [jsTruthy]))
    rw [hnn]
    simp only [jsOptTruthy]
    rw [if_pos htru]
  · intro hdev
    simp only [createSessionClaims, hdev]
    rcases hdr : getRequestDeviceId req with - | d
    · rfl
    · simp [jsNullishOr, jsOptTruthy, jsTruthy, getRequestDeviceId_ne req d hdr]

/-- Witness for C4: the refreshed token of the counterexample request
carries the preserved token_version and the request's UA hash. -/
theorem C4_refresh_preserves_claims_witness :
    (createSessionClaims envIdle2h
      { username := "alice", tokenVersion := 3,
        uaHash := some (.str (shaW "Mozilla")) } nowRef).token_version =
      claims10m.token_version
    ∧ (createSessionClaims envIdle2h
        { username := "alice", tokenVersion := 3,
          uaHash := some (.str (shaW "Mozilla")) } nowRef).ua =
      (if reqUA.userAgent.getD "" = "" then none
        else some (.str (shaW (reqUA.userAgent.getD "")))) :=
  let H := C4_refresh_preserves_claims shaW envIdle2h stW reqUA claims10m
    nowRef "alice" _ rfl shaW_ne
  ⟨H.1, H.2.2.2.2.2.1 rfl⟩

/-! ## C8 — logout bumps the token version and revokes old tokens -/

/-- The row the bump's UPDATE produces for `rec`. -/
def bumpedRow (rec : UserRow) : UserRow :=
  { rec with token_version := some (rec.token_version.getD 1 + 1) }

theorem find_bump (l : List UserRow) (U : String) (rec : UserRow)
    (h : l.find? (fun r => r.username = U) = some rec) :
    (l.map (fun r =>
      if r.username = U then
        { r with token_version := some (r.token_version.getD 1 + 1) }
      else r)).find? (fun r => r.username = U) = some (bumpedRow rec) := by
  induction l with
  | nil => simp at h
  | cons a t ih =>
    by_cases ha : a.username = U
    · rw [List.find?_cons_of_pos _ (by simp [ha])] at h
      injection h with h'
      subst h'
      simp only [List.map_cons, if_pos ha]
      rw [List.find?_cons_of_pos _ (by simp [ha])]
      rfl
    · rw [List.find?_cons_of_neg _ (by simp [ha])] at h
      simp only [List.map_cons, if_neg ha]
      rw [List.find?_cons_of_neg _ (by simp [ha])]
      exact ih h

/-- C8: logout's `bumpTokenVersion` increments the super-admin
in-memory counter by exactly 1 without touching the users table
(first conjunct); for a stored user it rewrites the row with
`COALESCE(token_version, 1) + 1` (second conjunct); and any token
carrying the pre-bump current version — still within its exp and
idle_expires, for a user that exists and is enabled, with a stored
version that is not the JS-falsy 0 — is afterwards rejected by the
bearer middleware with 401 "Session revoked." (third conjunct). -/
theorem C8_logout_revocation :
    (∀ (st : DirState) (u : String), isSuperadminUsername u = true →
      (bumpTokenVersion st u).2.superadminTokenVersion =
        st.superadminTokenVersion + 1
      ∧ (bumpTokenVersion st u).2.users = st.users
      ∧ (bumpTokenVersion st u).1 =
          some (getSuperadminRecord (bumpTokenVersion st u).2)) ∧
    (∀ (st : DirState) (u : String) (rec : UserRow),
      isSuperadminUsername u = false → getUser st u = some rec →
      getUser (bumpTokenVersion st u).2 u = some (bumpedRow rec)) ∧
    (∀ (sha : String → String) (env : Env) (st : DirState) (req : BearerReq)
      (claims : TokenClaims) (now : Int) (rec : UserRow),
      getUser st claims.username = some rec →
      rec.token_version ≠ some 0 →
      claims.token_version = jsOrOne rec.token_version →
      (jsOptTruthy claims.exp && jsNumLt claims.exp now) = false →
      (jsOptTruthy claims.idle_expires && jsNumLt claims.idle_expires now) =
        false →
      ∀ rec', getUser (bumpTokenVersion st claims.username).2 claims.username =
          some rec' →
        ¬ rec'.enabled = 0 →
        bearerAuthClaims sha env (bumpTokenVersion st claims.username).2 req
          claims now = authError 401 "Session revoked.") := by
  have hbump : ∀ (st : DirState) (u : String) (rec : UserRow),
      isSuperadminUsername u = false → getUser st u = some rec →
      getUser (bumpTokenVersion st u).2 u = some (bumpedRow rec) := by
    intro st u rec hsu hg
    unfold getUser at hg
    rw [hsu] at hg
    simp only [Bool.false_eq_true, if_false] at hg
    unfold bumpTokenVersion getUser
    rw [hsu]
    simp only [Bool.false_eq_true, if_false]
    exact find_bump st.users (asciiUpper u) rec hg
  refine ⟨?_, hbump, ?_⟩
  · intro st u h
    unfold bumpTokenVersion
    rw [h]
    simp only [if_pos rfl]
    exact ⟨rfl, rfl, rfl⟩
  · intro sha env st req claims now rec hg hnz hver hexp hidle rec' hg' hen
    -- the post-bump record's version
    have hv' : rec'.token_version = some (rec.token_version.getD 1 + 1) := by
      cases hsu : isSuperadminUsername claims.username with
      | true =>
        unfold getUser at hg
        rw [hsu] at hg
        simp only [if_pos rfl] at hg
        injection hg with hrec
        unfold bumpTokenVersion at hg'
        rw [hsu] at hg'
        simp only [if_pos rfl] at hg'
        unfold getUser at hg'
        rw [hsu] at hg'
        simp only [if_pos rfl] at hg'
        injection hg' with hrec'
        rw [← hrec', ← hrec]
        rfl
      | false =>
        have := hbump st claims.username rec hsu hg
        rw [this] at hg'
        injection hg' with hrec'
        rw [← hrec']
        rfl
    -- the bumped version never matches the token's version
    have hmis : jsOrOne rec'.token_version ≠ claims.token_version := by
      rw [hver, hv']
      rcases htv : rec.token_version with - | v
      · decide
      · have hv0 : v ≠ 0 := fun hh => hnz (htv.trans (by rw [hh]))
        unfold jsOrOne
        simp only [Option.getD]
        split_ifs <;> omega
    unfold bearerAuthClaims
    rw [hexp, hidle]
    simp only [Bool.false_eq_true, if_false]
    rw [hg']
    dsimp only
    rw [if_neg hen, if_pos hmis]

/-- Witness for C8: after logging out ALICE (version 3 → 4), the
previously accepted token `claimsW` is rejected as revoked. -/
theorem C8_logout_revocation_witness :
    bearerAuthClaims shaW {} (bumpTokenVersion stW "alice").2 {} claimsW 100 =
      authError 401 "Session revoked." :=
  C8_logout_revocation.2.2 shaW {} stW {} claimsW 100 rowAlice rfl (by decide)
    rfl rfl rfl _ rfl (by decide)

/-! ## C9 — the super-admin is a virtual identity -/

/-- The synthetic super-admin row with a given counter value
(`enabled` always 1). -/
def superRow (v : Int) : UserRow :=
  { username := SUPERADMIN_USERNAME, enabled := 1, token_version := some v }

/-- C9: for any case-insensitive spelling of the super-admin username,
`getUser` returns the synthetic record (enabled = 1, version = the
in-process counter), `bumpTokenVersion` increments only the in-process
counter and leaves the users table untouched, and `recordUserLogin`
leaves the whole directory state unchanged. -/
theorem C9_superadmin_virtual (st : DirState) (u : String)
    (h : isSuperadminUsername u = true) :
    getUser st u = some (superRow st.superadminTokenVersion)
    ∧ bumpTokenVersion st u =
        (some (getSuperadminRecord
          { st with superadminTokenVersion := st.superadminTokenVersion + 1 }),
         { st with superadminTokenVersion := st.superadminTokenVersion + 1 })
    ∧ (bumpTokenVersion st u).2.users = st.users
    ∧ (∀ d ua, recordUserLogin st u d ua = st) := by
  unfold getUser bumpTokenVersion recordUserLogin
  rw [h]
  exact ⟨rfl, rfl, rfl, fun d ua => rfl⟩

/-- Witness for C9 at the mixed-case spelling "superadmin". -/
theorem C9_superadmin_virtual_witness :
    getUser stW "superadmin" = some (superRow 1)
    ∧ (bumpTokenVersion stW "superadmin").2.users = stW.users
    ∧ recordUserLogin stW "superadmin" none none = stW :=
  let H := C9_superadmin_virtual stW "superadmin" rfl
  ⟨H.1, H.2.2.1, H.2.2.2 none none⟩

/-! ## C3 — login failure modes -/

def loginReqBob : LoginReq :=
  { authHeader := some ("Basic " ++ btoa ("BOB:pw".data.map Char.toNat)) }

/-- C3 counterexample: BOB exists, is disabled (`enabled = 0`) and
presents the correct password, yet the login endpoint answers 401
"Invalid credentials.", not 403: `verifyUserBasicAuth` (db.ts line 150)
already rejects disabled users during authentication, so the handler's
403 "User disabled." branch is not reached. -/
theorem C3_disabled_user_401_ctex :
    rowBob.enabled = 0
    ∧ rowBob.password = some (shaW "pw")
    ∧ verifyUserBasicAuth shaW stW loginReqBob.authHeader none = false
    ∧ (adminLogin shaW {} stW stW loginReqBob false 0).1 =
        .err 401 "Invalid credentials."
    ∧ (adminLogin shaW {} stW stW loginReqBob false 0).1 ≠
        .err 403 "User disabled." := by
  refine ⟨rfl, rfl, rfl, rfl, fun h => ?_⟩
  have h0 : (adminLogin shaW {} stW stW loginReqBob false 0).1 =
      .err 401 "Invalid credentials." := rfl
  rw [h0] at h
  injection h with h1 h2
  exact absurd h1 (by decide)

/-- C3 (amended): the login failure modes in order are — HTTPS
required but absent gives 403; missing/garbled Basic header gives 401
"Basic authorization required."; failed authentication gives 401
"Invalid credentials."; a user missing at the post-auth lookup gives
404; a user whose post-auth record is disabled gives 403 "User
disabled.".  The last two are reachable only when the directory changes
between the authentication lookup and the post-auth lookup: with a
consistent directory (`stA = stP`) the 403 "User disabled." branch is
unreachable, because authentication already fails for a disabled user
(the counterexample shows the correct password then yields 401). -/
theorem C3_login_failure_modes (sha : String → String) (env : Env)
    (stA stP : DirState) (req : LoginReq) (rf : Bool) (now : Int) :
    ((shouldEnforceHttps env &&
        ¬ isSecureRequest req.protoHttps req.urlHostname req.hostHeader) = true →
      (adminLogin sha env stA stP req rf now).1 =
        .err 403 "HTTPS is required for authentication (dev bypass failed).")
    ∧ ((shouldEnforceHttps env &&
        ¬ isSecureRequest req.protoHttps req.urlHostname req.hostHeader) = false →
      (basicSchemeRest (req.authHeader.getD "")).isNone = true →
      (adminLogin sha env stA stP req rf now).1 =
        .err 401 "Basic authorization required.")
    ∧ ((shouldEnforceHttps env &&
        ¬ isSecureRequest req.protoHttps req.urlHostname req.hostHeader) = false →
      (basicSchemeRest (req.authHeader.getD "")).isNone = false →
      authenticateUser sha stA (some (req.authHeader.getD ""))
        env.superadminPw = none →
      (adminLogin sha env stA stP req rf now).1 =
        .err 401 "Invalid credentials.")
    ∧ (∀ u, (shouldEnforceHttps env &&
        ¬ isSecureRequest req.protoHttps req.urlHostname req.hostHeader) = false →
      (basicSchemeRest (req.authHeader.getD "")).isNone = false →
      authenticateUser sha stA (some (req.authHeader.getD ""))
        env.superadminPw = some u →
      getUser stP u = none →
      (adminLogin sha env stA stP req rf now).1 = .err 404 "User not found.")
    ∧ (∀ u rec, (shouldEnforceHttps env &&
        ¬ isSecureRequest req.protoHttps req.urlHostname req.hostHeader) = false →
      (basicSchemeRest (req.authHeader.getD "")).isNone = false →
      authenticateUser sha stA (some (req.authHeader.getD ""))
        env.superadminPw = some u →
      getUser stP u = some rec → rec.enabled = 0 →
      (adminLogin sha env stA stP req rf now).1 = .err 403 "User disabled.")
    ∧ (stA = stP →
      (adminLogin sha env stA stP req rf now).1 ≠ .err 403 "User disabled.") := by
  refine ⟨?_, ?_, ?_, ?_, ?_, ?_⟩
  · intro hh
    unfold adminLogin
    rw [if_pos hh]
  · intro hh hb
    unfold adminLogin
    rw [if_neg (by rw [hh]; simp)]
    dsimp only
    rw [if_pos hb]
  · intro hh hb hau
    unfold adminLogin
    rw [if_neg (by rw [hh]; simp)]
    dsimp only
    rw [if_neg (by simp [hb]), hau]
  · intro u hh hb hau hgu
    unfold adminLogin
    rw [if_neg (by rw [hh]; simp)]
    dsimp only
    rw [if_neg (by simp [hb]), hau]
    dsimp only
    rw [hgu]
  · intro u rec hh hb hau hgu he
    unfold adminLogin
    rw [if_neg (by rw [hh]; simp)]
    dsimp only
    rw [if_neg (by simp [hb]), hau]
    dsimp only
    rw [hgu]
    dsimp only
    rw [if_pos he]
  · intro hst h
    subst hst
    unfold adminLogin at h
    cases hh : (shouldEnforceHttps env &&
        ¬ isSecureRequest req.protoHttps req.urlHostname req.hostHeader) with
    | true =>
      rw [if_pos hh] at h
      injection h with h1 h2
      exact absurd h2 (by decide)
    | false =>
      rw [if_neg (by rw [hh]; simp)] at h
      dsimp only at h
      cases hbN : (basicSchemeRest (req.authHeader.getD "")).isNone with
      | true =>
        rw [if_pos hbN] at h
        injection h with h1 h2
        exact absurd h2 (by decide)
      | false =>
        rw [if_neg (by rw [hbN]; simp)] at h
        cases hau : authenticateUser sha stA (some (req.authHeader.getD ""))
            env.superadminPw with
        | none =>
          rw [hau] at h
          dsimp only at h
          injection h with h1 h2
          exact absurd h2 (by decide)
        | some username =>
          rw [hau] at h
          dsimp only at h
          cases hgu : getUser stA username with
          | none =>
            rw [hgu] at h
            dsimp only at h
            injection h with h1 h2
            exact absurd h1 (by decide)
          | some rec =>
            rw [hgu] at h
            dsimp only at h
            by_cases he : rec.enabled = 0
            · -- impossible: authentication would have failed
              exfalso
              unfold authenticateUser at hau
              cases hv : verifyUserBasicAuth sha stA
                  (some (req.authHeader.getD "")) env.superadminPw with
              | false =>
                rw [if_neg (by simp [hv])] at hau
                exact Option.noConfusion hau
              | true =>
                rw [if_pos hv] at hau
                dsimp only at hau
                cases hbr : basicSchemeRest (req.authHeader.getD "") with
                | none =>
                  rw [hbr] at hau
                  exact Option.noConfusion hau
                | some b64 =>
                  rw [hbr] at hau
                  dsimp only at hau
                  cases hat : atobStr b64 with
                  | none =>
                    rw [hat] at hau
                    exact Option.noConfusion hau
                  | some decoded =>
                    rw [hat] at hau
                    dsimp only at hau
                    by_cases hu0 : (jsSplitChar decoded ':').getD 0 "" = ""
                    · rw [if_pos hu0] at hau
                      exact Option.noConfusion hau
                    · rw [if_neg hu0] at hau
                      injection hau with hueq
                      unfold verifyUserBasicAuth at hv
                      dsimp only at hv
                      rw [hbr] at hv
                      dsimp only at hv
                      rw [hat] at hv
                      dsimp only at hv
                      by_cases hp0 : (jsSplitChar decoded ':').getD 1 "" = ""
                      · rw [if_pos (Or.inr hp0)] at hv
                        exact Bool.noConfusion hv
                      · rw [if_neg (fun hor => hor.elim hu0 hp0)] at hv
                        cases hsu : isSuperadminUsername
                            ((jsSplitChar decoded ':').getD 0 "") with
                        | true =>
                          have hsup : getUser stA username =
                              some (getSuperadminRecord stA) := by
                            rw [← hueq, getUser_asciiUpper]
                            unfold getUser
                            rw [hsu]
                            rfl
                          rw [hsup] at hgu
                          injection hgu with hrec
                          rw [← hrec] at he
                          simp [getSuperadminRecord] at he
                        | false =>
                          rw [if_neg (by rw [hsu]; simp)] at hv
                          cases hgr : getUser stA
                              ((jsSplitChar decoded ':').getD 0 "") with
                          | none =>
                            rw [hgr] at hv
                            exact Bool.noConfusion hv
                          | some rec0 =>
                            rw [hgr] at hv
                            dsimp only at hv
                            by_cases he0 : rec0.enabled = 0
                            · rw [if_pos he0] at hv
                              exact Bool.noConfusion hv
                            · rw [if_neg he0] at hv
                              rw [← hueq, getUser_asciiUpper, hgr] at hgu
                              injection hgu with hrec
                              exact he0 (hrec ▸ he)
            · rw [if_neg he] at h
              cases rf with
              | true =>
                rw [if_pos rfl] at h
                injection h with h1 h2
                exact absurd h1 (by decide)
              | false =>
                rw [if_neg (by simp)] at h
                exact LoginResp.noConfusion h

/-- Witness for C3: the counterexample request goes through the
invalid-credentials branch. -/
theorem C3_login_failure_modes_witness :
    (adminLogin shaW {} stW stW loginReqBob false 0).1 =
      .err 401 "Invalid credentials." :=
  (C3_login_failure_modes shaW {} stW stW loginReqBob false 0).2.2.1 rfl rfl rfl

/-! ## C5 — anonymous-submission rate limiting -/

/-- One CAPTCHA-passing submission from the same contact, default
configuration, no store faults, no known client IP. -/
def submitStep (s : Store) : ReqResp × Store :=
  submitRequest shaW {} { contact := "user@example.com" } none {} s 0

/-- The store after `n` submissions. -/
def submitIter : Nat → Store
  | 0 => {}
  | n + 1 => (submitStep (submitIter n)).2

/-- C5: a CAPTCHA-passing submission is rejected with 429/RATELIMIT
exactly when the contact hash's in-window hit count reaches the
configured limit, or a client IP is known and its in-window hit count
reaches the limit (first conjunct, session.ts line 464); the defaults
are limit 5 and window 1440 minutes, and the 6th submission from the
same contact within the window is rejected while the 5th still
succeeds. -/
theorem C5_rate_limit_policy :
    (∀ (sha : String → String) (env : Env) (sub : Submission)
      (clientIp : Option String) (s : Store) (now : Int),
      env.turnstileSecretConfigured = true → sub.captchaOk = true →
      ((submitRequest sha env sub clientIp {} s now).1 =
          .err 429 "RATELIMIT" ↔
        (countRequestRateLimitHits
            (pruneRequestRateLimitHits s (getRequestWindowMinutes env) now)
            (sha (asciiLower (jsTrim sub.contact))) clientIp
            (getRequestWindowMinutes env) now).1 ≥ getRequestLimit env ∨
          (¬(clientIp.getD "" = "") ∧
            (countRequestRateLimitHits
              (pruneRequestRateLimitHits s (getRequestWindowMinutes env) now)
              (sha (asciiLower (jsTrim sub.contact))) clientIp
              (getRequestWindowMinutes env) now).2 ≥ getRequestLimit env))) ∧
    getRequestLimit {} = 5 ∧
    getRequestWindowMinutes {} = 1440 ∧
    (submitStep (submitIter 4)).1 = .created 5 "pending" 5 0 1440 ∧
    (submitStep (submitIter 5)).1 = .err 429 "RATELIMIT" := by
  refine ⟨?_, rfl, rfl, rfl, rfl⟩
  intro sha env sub clientIp s now hts hcap
  unfold submitRequest
  rw [if_neg (by rw [hts]; simp), if_neg (by rw [hcap]; simp)]
  dsimp only
  rw [if_neg (by simp)]
  rw [if_neg (by simp)]
  split
  · next hcond =>
    constructor
    · rintro -
      have hthis := hcond
      simp only [Bool.or_eq_true, Bool.and_eq_true, decide_eq_true_eq] at hthis
      exact hthis
    · rintro -
      rfl
  · next hcond =>
    constructor
    · intro hL
      rw [if_neg (by simp)] at hL
      rw [if_neg (by simp)] at hL
      exact absurd hL (by simp)
    · intro hR
      exfalso
      rcases hR with h1 | ⟨h2, h3⟩
      · simp [h1] at hcond
      · simp [h2, h3] at hcond

/-- Witness for C5: the policy equivalence instantiated at the empty
store (no prior hits: the first submission is not rate limited). -/
theorem C5_rate_limit_policy_witness :
    (submitRequest shaW {} { contact := "user@example.com" } none {} {} 0).1 =
        .err 429 "RATELIMIT" ↔
      (countRequestRateLimitHits
          (pruneRequestRateLimitHits {} (getRequestWindowMinutes {}) 0)
          (shaW (asciiLower (jsTrim "user@example.com"))) none
          (getRequestWindowMinutes {}) 0).1 ≥ getRequestLimit {} ∨
        (¬((none : Option String).getD "" = "") ∧
          (countRequestRateLimitHits
            (pruneRequestRateLimitHits {} (getRequestWindowMinutes {}) 0)
            (shaW (asciiLower (jsTrim "user@example.com"))) none
            (getRequestWindowMinutes {}) 0).2 ≥ getRequestLimit {}) :=
  C5_rate_limit_policy.1 shaW {} { contact := "user@example.com" } none {} 0
    rfl rfl

/-! ## C6 — store failures during rate-limit bookkeeping -/

def faultsRecord : StoreFaults := { recordFails := true }

/-- C6 counterexample: when `recordRequestRateLimitHit` fails, the
endpoint does return an error (422, not 201) — but the guest request
was already inserted (session.ts lines 473-494: the hit is recorded
AFTER `insertGuestRequest`, with no rollback), so "the guest request is
not stored" is false. -/
theorem C6_record_fail_stored_ctex :
    (submitRequest shaW {} { contact := "user@example.com" } none
        faultsRecord {} 0).1 = .err 422 "SQL"
    ∧ ((submitRequest shaW {} { contact := "user@example.com" } none
        faultsRecord {} 0).2.guests.map (fun g => g.contact)) =
      ["user@example.com"]
    ∧ (submitRequest shaW {} { contact := "user@example.com" } none
        faultsRecord {} 0).2.guests ≠ [] :=
  ⟨rfl, rfl, by decide⟩

/-- Any 201-created response implies none of the four store operations
failed. -/
theorem submit_created_no_faults (sha : String → String) (env : Env)
    (sub : Submission) (clientIp : Option String) (f : StoreFaults)
    (s : Store) (now : Int) (i : Nat) (st : String) (lim rem w : Int)
    (h : (submitRequest sha env sub clientIp f s now).1 =
      .created i st lim rem w) :
    f.pruneFails = false ∧ f.countFails = false ∧ f.insertFails = false ∧
      f.recordFails = false := by
  unfold submitRequest at h
  by_cases h1 : env.turnstileSecretConfigured
  case neg =>
    rw [if_pos (by simp [h1])] at h
    exact absurd h (by simp)
  rw [if_neg (by simp [h1])] at h
  by_cases h2 : sub.captchaOk
  case neg =>
    rw [if_pos (by simp [h2])] at h
    exact absurd h (by simp)
  rw [if_neg (by simp [h2])] at h
  dsimp only at h
  cases hp : f.pruneFails with
  | true =>
    rw [if_pos hp] at h
    exact absurd h (by simp)
  | false =>
    rw [if_neg (by rw [hp]; simp)] at h
    cases hc : f.countFails with
    | true =>
      rw [if_pos hc] at h
      exact absurd h (by simp)
    | false =>
      rw [if_neg (by rw [hc]; simp)] at h
      split at h
      · exact absurd h (by simp)
      · cases hi : f.insertFails with
        | true =>
          rw [if_pos hi] at h
          exact absurd h (by simp)
        | false =>
          rw [if_neg (by rw [hi]; simp)] at h
          cases hr : f.recordFails with
          | true =>
            rw [if_pos hr] at h
            exact absurd h (by simp)
          | false =>
            exact ⟨rfl, rfl, rfl, rfl⟩

/-- C6 (amended): a store failure in any rate-limit bookkeeping step
surfaces as an error response — a 201 success is impossible whenever
any step failed (first conjunct).  A failure of pruning or counting
leaves the guest unstored (second and third conjuncts), and so does an
insertion failure (fourth); but the hit is recorded only AFTER the
guest request is inserted, so a failure of `recordRequestRateLimitHit`
returns an error while the guest request REMAINS stored (fifth
conjunct) — the store failure is surfaced, not swallowed, but the
"not stored" half of the claim fails there. -/
theorem C6_store_failure_no_success (sha : String → String) (env : Env)
    (sub : Submission) (clientIp : Option String) (f : StoreFaults)
    (s : Store) (now : Int)
    (hts : env.turnstileSecretConfigured = true)
    (hcap : sub.captchaOk = true) :
    ((f.pruneFails = true ∨ f.countFails = true ∨ f.insertFails = true ∨
        f.recordFails = true) →
      ∀ (i : Nat) (st : String) (lim rem w : Int),
        (submitRequest sha env sub clientIp f s now).1 ≠
          .created i st lim rem w)
    ∧ (f.pruneFails = true →
        (submitRequest sha env sub clientIp f s now).1 = .err 422 "SQL"
        ∧ (submitRequest sha env sub clientIp f s now).2 = s)
    ∧ (f.pruneFails = false → f.countFails = true →
        (submitRequest sha env sub clientIp f s now).1 = .err 422 "SQL"
        ∧ (submitRequest sha env sub clientIp f s now).2.guests = s.guests)
    ∧ (f.pruneFails = false → f.countFails = false → f.insertFails = true →
        (∃ code kind, (submitRequest sha env sub clientIp f s now).1 =
          .err code kind)
        ∧ (submitRequest sha env sub clientIp f s now).2.guests = s.guests)
    ∧ (f.pruneFails = false → f.countFails = false → f.insertFails = false →
        f.recordFails = true →
        ((submitRequest sha env sub clientIp f s now).1 =
            .err 429 "RATELIMIT" ∧
          (submitRequest sha env sub clientIp f s now).2.guests = s.guests)
        ∨ ((submitRequest sha env sub clientIp f s now).1 = .err 422 "SQL" ∧
          (submitRequest sha env sub clientIp f s now).2.guests ≠ s.guests)) := by
  have append_singleton_ne : ∀ (l : List GuestReq) (a : GuestReq),
      l ++ [a] ≠ l := by
    intro l a h
    have hlen := congrArg List.length h
    simp at hlen
  refine ⟨?_, ?_, ?_, ?_, ?_⟩
  · intro hdisj i st lim rem w h
    obtain ⟨hp, hc, hi, hr⟩ :=
      submit_created_no_faults sha env sub clientIp f s now i st lim rem w h
    rcases hdisj with h' | h' | h' | h' <;> simp_all
  · intro hp
    unfold submitRequest
    rw [if_neg (by rw [hts]; simp), if_neg (by rw [hcap]; simp)]
    dsimp only
    rw [if_pos hp]
    exact ⟨rfl, rfl⟩
  · intro hp hc
    unfold submitRequest
    rw [if_neg (by rw [hts]; simp), if_neg (by rw [hcap]; simp)]
    dsimp only
    rw [if_neg (by rw [hp]; simp), if_pos hc]
    exact ⟨rfl, rfl⟩
  · intro hp hc hi
    unfold submitRequest
    rw [if_neg (by rw [hts]; simp), if_neg (by rw [hcap]; simp)]
    dsimp only
    rw [if_neg (by rw [hp]; simp), if_neg (by rw [hc]; simp)]
    split
    · exact ⟨⟨429, "RATELIMIT", rfl⟩, rfl⟩
    · simp only [hi]
      exact ⟨⟨422, "SQL", rfl⟩, rfl⟩
  · intro hp hc hi hr
    unfold submitRequest
    rw [if_neg (by rw [hts]; simp), if_neg (by rw [hcap]; simp)]
    dsimp only
    rw [if_neg (by rw [hp]; simp), if_neg (by rw [hc]; simp)]
    split
    · exact Or.inl ⟨rfl, rfl⟩
    · simp only [hi, hr]
      exact Or.inr ⟨rfl, append_singleton_ne s.guests _⟩

/-- Witness for C6: the record-hit failure scenario at the empty store
(not rate limited, so the error is the surfaced SQL failure and the
guest list did change). -/
theorem C6_store_failure_no_success_witness :
    ((submitRequest shaW {} { contact := "user@example.com" } none
        faultsRecord {} 0).1 = .err 429 "RATELIMIT"
      ∧ (submitRequest shaW {} { contact := "user@example.com" } none
        faultsRecord {} 0).2.guests = ({} : Store).guests)
    ∨ ((submitRequest shaW {} { contact := "user@example.com" } none
        faultsRecord {} 0).1 = .err 422 "SQL"
      ∧ (submitRequest shaW {} { contact := "user@example.com" } none
        faultsRecord {} 0).2.guests ≠ ({} : Store).guests) :=
  (C6_store_failure_no_success shaW {} { contact := "user@example.com" }
    none faultsRecord {} 0 rfl rfl).2.2.2.2 rfl rfl rfl rfl

end BgReps
